import Mathlib

/-!
Verification of the tableau-ppt-export service.

The definitions below are shallow embeddings of the JavaScript sources:
pure functions become Lean functions, JavaScript strings become `String`
or `List Char`, JavaScript numbers become `ℚ` or `Nat`/`Int` as noted at
each definition, `Map`/object insertion-order semantics are modelled by
association lists, and fallible code returns `Except`/`Option`.
-/

namespace TPE

/-- Association-list lookup: first binding wins, mirroring `Map.get` /
object property lookup on our insertion-ordered association lists. -/
def assocGet (m : List (String × α)) (k : String) : Option α :=
  (m.find? (fun p => p.1 = k)).map (·.2)

/-- JavaScript `Map.prototype.set` / object property assignment on an
insertion-ordered association list: an existing key is updated in place
(keeping its position), a new key is appended. -/
def assocSet (m : List (String × α)) (k : String) (v : α) : List (String × α) :=
  if m.any (fun p => p.1 = k) then
    m.map (fun p => if p.1 = k then (k, v) else p)
  else
    m ++ [(k, v)]

/-- JavaScript `a || b` on possibly-absent strings: `undefined` and the
empty string are falsy. -/
def jsOrStr (a : Option String) (b : Option String) : Option String :=
  match a with
  | some s => if s = "" then b else some s
  | none => b

/-- JavaScript truthiness of a possibly-absent string argument:
`undefined`/`null` and `""` are falsy. -/
def jsTruthy (a : Option String) : Bool :=
  match a with
  | some s => s ≠ ""
  | none => false

/-- Slices a list into consecutive chunks of size `c` (the batching
`for (let i = 0; i < n; i += concurrency)` loop). The `fuel` argument
makes the recursion structural; callers pass `l.length + 1`, which is
enough fuel whenever `c > 0`. (The JavaScript loop never terminates when
`concurrency = 0`; every theorem below assumes a positive concurrency.) -/
def chunkListFuel (fuel : Nat) (c : Nat) (l : List α) : List (List α) :=
  match fuel, l with
  | _, [] => []
  | 0, l => [l]
  | fuel + 1, l@(_ :: _) => l.take c :: chunkListFuel fuel c (l.drop c)

/-- Decimal digit character for `n < 10`. -/
def natDigitChar (n : Nat) : Char := Char.ofNat (48 + n)

/-- Decimal digits of `n`, most significant first; `fuel`-driven so that
the recursion is structural and kernel-reducible. -/
def natDigitsAux : Nat → Nat → List Char
  | 0, _ => []
  | fuel + 1, n =>
    if n < 10 then [natDigitChar n]
    else natDigitsAux fuel (n / 10) ++ [natDigitChar (n % 10)]

/-- Decimal representation of a natural number. -/
def natToStr (n : Nat) : String := ⟨natDigitsAux (n + 1) n⟩

/-- Numeric value of a digit character. -/
def digitVal (c : Char) : Nat := c.toNat - 48

/-- Value of a list of decimal digit characters. -/
def digitsToNat (ds : List Char) : Nat :=
  ds.foldl (fun n c => n * 10 + digitVal c) 0

/-! ### `formatDataValue` (src/utils/pptx-helpers.util.js)

JavaScript numbers are modelled as exact signed decimals
`(-1)^neg * mant * 10^exp10` with `mant : Nat`, `exp10 : Int`. On every
concrete input appearing in the theorems below this agrees with IEEE-754
doubles: the doubles nearest to `12.345` and `57.03` lie strictly above
`12.345` and strictly below `57.035` respectively, so `toFixed(2)` rounds
the same way as round-half-up on the exact decimal value. -/

/-- An exact decimal number: `(-1)^neg * mant * 10^exp10`. -/
structure JsDec where
  neg : Bool
  mant : Nat
  exp10 : Int
  deriving DecidableEq, Repr

/-- The `FORMAT_TYPES` constants of pptx-helpers.util.js. -/
def FORMAT_CURRENCY : String := "currency"

/-- Constant `FORMAT_TYPES.NUMBER`. -/
def FORMAT_NUMBER : String := "number"

/-- Constant `FORMAT_TYPES.DECIMAL`. -/
def FORMAT_DECIMAL : String := "decimal"

/-- Constant `FORMAT_TYPES.PERCENTAGE`. -/
def FORMAT_PERCENTAGE : String := "percentage"

/-- Constant `FORMAT_TYPES.STRING`. -/
def FORMAT_STRING : String := "string"

/-- JavaScript `parseFloat` on a string: skip leading whitespace, parse an
optional sign, integer digits, an optional fractional part and an optional
exponent; return `none` (NaN) when no digits were found. -/
def jsParseFloat (s : String) : Option JsDec :=
  let cs := s.data.dropWhile (fun c => c = ' ' ∨ c = '\t' ∨ c = '\n' ∨ c = '\r')
  let signAndRest : Bool × List Char :=
    match cs with
    | '-' :: rest => (true, rest)
    | '+' :: rest => (false, rest)
    | _ => (false, cs)
  let neg := signAndRest.1
  let cs1 := signAndRest.2
  let intDigits := cs1.takeWhile Char.isDigit
  let cs2 := cs1.dropWhile Char.isDigit
  let fracDigits :=
    match cs2 with
    | '.' :: rest => rest.takeWhile Char.isDigit
    | _ => []
  let cs3 :=
    match cs2 with
    | '.' :: rest => rest.dropWhile Char.isDigit
    | _ => cs2
  if intDigits = [] ∧ fracDigits = [] then none
  else
    let expVal : Int :=
      match cs3 with
      | c :: rest =>
        if c = 'e' ∨ c = 'E' then
          match rest with
          | '-' :: ds =>
            let eds := ds.takeWhile Char.isDigit
            if eds = [] then 0 else -(digitsToNat eds : Int)
          | '+' :: ds =>
            let eds := ds.takeWhile Char.isDigit
            if eds = [] then 0 else (digitsToNat eds : Int)
          | ds =>
            let eds := ds.takeWhile Char.isDigit
            if eds = [] then 0 else (digitsToNat eds : Int)
        else 0
      | [] => 0
    some
      { neg := neg
        mant := digitsToNat (intDigits ++ fracDigits)
        exp10 := expVal - fracDigits.length }

/-- Computes `⌊|d| * 10^k + 1/2⌋` for an exact decimal `d` — the magnitude of `d`
rounded half-up at `k` decimal places, scaled to an integer. -/
def roundAtScale (d : JsDec) (k : Nat) : Nat :=
  let e : Int := d.exp10 + k
  if 0 ≤ e then d.mant * 10 ^ e.toNat
  else (2 * d.mant + 10 ^ (-e).toNat) / (2 * 10 ^ (-e).toNat)

/-- JavaScript `n.toFixed(2)`: exactly two decimals, rounding to nearest
with halves away from zero (see the note on IEEE agreement above). -/
def toFixed2 (d : JsDec) : String :=
  let n := roundAtScale d 2
  let core :=
    natToStr (n / 100) ++ "." ++
      (if n % 100 < 10 then "0" ++ natToStr (n % 100) else natToStr (n % 100))
  if d.neg then "-" ++ core else core

/-- Groups a digit string with commas every three digits from the right
(en-US `toLocaleString` grouping). -/
def group3 (ds : List Char) : List Char :=
  (List.intercalate [','] (chunkListFuel (ds.length + 1) 3 ds.reverse)).reverse

/-- JavaScript `n.toLocaleString()` under the en-US default locale:
grouped integer part, at most three fraction digits (rounded, trailing
zeros dropped). -/
def jsToLocaleString (d : JsDec) : String :=
  let n := roundAtScale d 3
  let intPart := n / 1000
  let fracPart := n % 1000
  let intStr : List Char := group3 (natToStr intPart).data
  let core : String :=
    if fracPart = 0 then ⟨intStr⟩
    else
      let fds : List Char := natDigitsAux fracPart fracPart
      let padded : List Char := List.replicate (3 - fds.length) '0' ++ fds
      let trimmed := (padded.reverse.dropWhile (fun c => c = '0')).reverse
      ⟨intStr ++ '.' :: trimmed⟩
  if d.neg then "-" ++ core else core

/-- Embeds `formatDataValue(value, format)` from pptx-helpers.util.js for string
(or null/undefined, modelled as `none`) inputs. `parseFloat` failure (NaN)
falls through to string coercion, exactly as the source's `isNaN` check. -/
def formatDataValue (value : Option String) (format : String) : String :=
  match value with
  | none => ""
  | some v =>
    if format = FORMAT_STRING then v
    else
      match jsParseFloat v with
      | none => v
      | some numValue =>
        if format = FORMAT_CURRENCY then "$" ++ jsToLocaleString numValue
        else if format = FORMAT_PERCENTAGE then toFixed2 numValue ++ "%"
        else if format = FORMAT_DECIMAL then toFixed2 numValue
        else if format = FORMAT_NUMBER then jsToLocaleString numValue
        else v

/-! ### `_parseCsvToRows` (DataTransformerService)

The character-by-character CSV state machine of
`DataTransformerService._parseCsvToRows`, embedded over `List Char`
(a CSV cell is a `List Char`, a row a list of cells). -/

/-- Commits `currentRow ++ [currentCell]` as a finished row: the source
pushes the row only when some cell is non-empty
(`if (currentRow.some((c) => c !== ""))`). -/
def csvCommitRow (rows : List (List (List Char))) (row : List (List Char))
    (cell : List Char) : List (List (List Char)) :=
  if (row ++ [cell]).any (fun c => c ≠ []) then rows ++ [row ++ [cell]] else rows

/-- The end-of-input flush: `if (currentCell !== "" || currentRow.length)`. -/
def csvFlushEnd (rows : List (List (List Char))) (row : List (List Char))
    (cell : List Char) : List (List (List Char)) :=
  if cell ≠ [] ∨ row ≠ [] then csvCommitRow rows row cell else rows

/-- The loop body of `_parseCsvToRows`, one constructor of the input list
per step. Inside quotes a doubled `"` is the two-character escape the
source detects with its `csvText[i + 1]` lookahead. -/
def parseCsvAux : Bool → List (List (List Char)) → List (List Char) →
    List Char → List Char → List (List (List Char))
  | _, rows, row, cell, [] => csvFlushEnd rows row cell
  | true, rows, row, cell, '"' :: '"' :: cs2 =>
    parseCsvAux true rows row (cell ++ ['"']) cs2
  | true, rows, row, cell, '"' :: cs => parseCsvAux false rows row cell cs
  | true, rows, row, cell, c :: cs => parseCsvAux true rows row (cell ++ [c]) cs
  | false, rows, row, cell, c :: cs =>
    if c = '"' then parseCsvAux true rows row cell cs
    else if c = ',' then parseCsvAux false rows (row ++ [cell]) [] cs
    else if c = '\r' then parseCsvAux false rows row cell cs
    else if c = '\n' then parseCsvAux false (csvCommitRow rows row cell) [] [] cs
    else parseCsvAux false rows row (cell ++ [c]) cs

/-- Embeds `_parseCsvToRows(csvText)`: parse CSV text into rows of cells. -/
def parseCsvToRows (csvText : List Char) : List (List (List Char)) :=
  parseCsvAux false [] [] [] csvText

/-- A cell needs quoting when it contains a comma, a quote or a line
break (RFC 4180). -/
def csvNeedsQuote (cell : List Char) : Bool :=
  cell.any (fun c => c = ',' ∨ c = '"' ∨ c = '\n' ∨ c = '\r')

/-- Doubles every `"` in a cell body (RFC 4180 quoting). -/
def csvEscape : List Char → List Char
  | [] => []
  | c :: cs => if c = '"' then '"' :: '"' :: csvEscape cs else c :: csvEscape cs

/-- Serializes one cell, quoting exactly when needed. -/
def csvCell (cell : List Char) : List Char :=
  if csvNeedsQuote cell then '"' :: (csvEscape cell ++ ['"']) else cell

/-- Serializes one record: cells joined with commas. -/
def csvRow : List (List Char) → List Char
  | [] => []
  | [c] => csvCell c
  | c :: c2 :: r => csvCell c ++ ',' :: csvRow (c2 :: r)

/-- Serializes a list of records: rows joined with `\n`, no trailing
newline. This is the canonical RFC 4180 rendering of the given logical
cell contents ("re-quoting where needed"). -/
def csvOfRows : List (List (List Char)) → List Char
  | [] => []
  | [r] => csvRow r
  | r :: r2 :: rs => csvRow r ++ '\n' :: csvOfRows (r2 :: rs)

/-- Committing a fully assembled row (`csvCommitRow` with the row and the
pending cell already concatenated). -/
def csvCommitFull (rows : List (List (List Char))) (row : List (List Char)) :
    List (List (List Char)) :=
  if row.any (fun c => c ≠ []) then rows ++ [row] else rows

/-! ### DataTransformerService (data-transformer.service.js) -/

/-- One column schema entry of `tableau-views.json` (`viewConfig.columns`
values); every field may be absent in the JSON. -/
structure ColCfg where
  columnName : Option String
  displayName : Option String
  format : Option String
  isNeededForView : Option Bool
  deriving DecidableEq, Repr

/-- One view configuration (`tableau-views.json` `VIEWS` entry). The
`columns` association list keeps the JSON insertion order (JavaScript
`Object.entries` order); a `none` value models a null column entry. -/
structure ViewCfg where
  name : Option String
  viewType : Option String
  columns : List (String × Option ColCfg)
  deriving DecidableEq, Repr

/-- ASCII lowercase of one character (`toLowerCase` on the ASCII format
names used in the configs). -/
def jsCharLower (c : Char) : Char :=
  if 'A' ≤ c ∧ c ≤ 'Z' then Char.ofNat (c.toNat + 32) else c

/-- ASCII lowercase of a string. -/
def jsToLower (s : String) : String := ⟨s.data.map jsCharLower⟩

/-- JavaScript `String.prototype.trim`: strip leading and trailing
whitespace. -/
def jsTrim (s : String) : String :=
  let ws : Char → Bool := fun c => c = ' ' ∨ c = '\t' ∨ c = '\n' ∨ c = '\r'
  ⟨((s.data.dropWhile ws).reverse.dropWhile ws).reverse⟩

/-- Embeds `_mapFormatType(format)`: lowercase lookup in the format map, falling
back to `FORMAT_TYPES.STRING`. The source's map sends each of the five
lowercase names to the identically-valued `FORMAT_TYPES` constant. -/
def mapFormatType (format : Option String) : String :=
  let f := jsToLower (format.getD "")
  if f = FORMAT_CURRENCY ∨ f = FORMAT_PERCENTAGE ∨ f = FORMAT_DECIMAL ∨
      f = FORMAT_NUMBER ∨ f = FORMAT_STRING then f
  else FORMAT_STRING

/-- Embeds `_normalizeCellValue(rawValue, format)`: trim, and for the four
numeric formats strip thousands separators (commas). -/
def normalizeCellValue (rawValue : String) (format : String) : String :=
  let stringValue := jsTrim rawValue
  if format = FORMAT_NUMBER ∨ format = FORMAT_DECIMAL ∨
      format = FORMAT_CURRENCY ∨ format = FORMAT_PERCENTAGE then
    ⟨stringValue.data.filter (fun c => c ≠ ',')⟩
  else stringValue

/-- A transformed table cell `{field, value, format}` (also used for the
header cells `{field, value, format}`). -/
structure TCell where
  field : String
  value : String
  format : String
  deriving DecidableEq, Repr

/-- A transformed view: either a flag card or a table. -/
inductive TransformedView where
  | flagCard (field value format : String)
  | table (headers : List TCell) (rows : List (List TCell))
  deriving DecidableEq, Repr

/-- The active fields computed inside `_parseCsvToRowMaps`: config
entries (in schema order) whose config is present, whose
`isNeededForView` is not `false`, whose `columnName` is set, and whose
`columnName` occurs in the CSV header row. Pairs each `fieldKey` with
the CSV column index. -/
def activeFieldsOf (columns : List (String × Option ColCfg))
    (headerIndexByName : List (String × Nat)) : List (String × Nat) :=
  columns.filterMap (fun p =>
    match p.2 with
    | none => none
    | some cfg =>
      if cfg.isNeededForView = some false then none
      else
        match cfg.columnName with
        | none => none
        | some cn =>
          if cn = "" then none
          else
            match assocGet headerIndexByName cn with
            | none => none
            | some idx => some (p.1, idx))

/-- Builds the `headerIndexByName` map of `_parseCsvToRowMaps`: each
non-empty trimmed header name maps to its index (`Map.set` semantics, so
a duplicate name keeps its first position but takes the last index). -/
def headerIndexMap (headerRow : List String) : List (String × Nat) :=
  (headerRow.enum).foldl
    (fun m p => if p.2 = "" then m else assocSet m p.2 p.1) []

/-- Embeds `_parseCsvToRowMaps(useCase, viewKey, viewConfig, csvText)`: parse the
CSV, take the first row as header, project the configured columns, drop
rows whose cells are all empty, and build `fieldKey → value` row maps. -/
def parseCsvToRowMaps (viewConfig : ViewCfg) (csvText : String) :
    List (List (String × String)) :=
  if csvText = "" then []
  else
    let allRows := parseCsvToRows csvText.data
    match allRows with
    | [] => []
    | headerCells :: dataRows =>
      let headerRow : List String := headerCells.map (fun h => jsTrim ⟨h⟩)
      let headerIdx := headerIndexMap headerRow
      let activeFields := activeFieldsOf viewConfig.columns headerIdx
      if activeFields = [] then []
      else
        (dataRows.filter (fun r => r.any (fun v => v ≠ []))).map (fun r =>
          activeFields.map (fun af =>
            (af.1, match r.get? af.2 with
                   | some v => (⟨v⟩ : String)
                   | none => "")))

/-- Embeds `_transformFlagCardFromRowMaps`: first row, first field. -/
def transformFlagCardFromRowMaps (viewConfig : ViewCfg)
    (rowMaps : List (List (String × String))) : Option TransformedView :=
  match rowMaps with
  | [] => none
  | firstRow :: _ =>
    match firstRow with
    | [] => none
    | (primaryFieldKey, rawValue) :: _ =>
      let cfg : ColCfg :=
        ((assocGet viewConfig.columns primaryFieldKey).bind id).getD
          ⟨none, none, none, none⟩
      let format := mapFormatType cfg.format
      some (.flagCard primaryFieldKey (normalizeCellValue rawValue format) format)

/-- Embeds `_transformTableFromRowMaps`: headers from the schema entries whose
config is present and whose `isNeededForView` is not `false` (schema
order); each row projects exactly the header fields. -/
def transformTableFromRowMaps (viewConfig : ViewCfg)
    (rowMaps : List (List (String × String))) : Option TransformedView :=
  match rowMaps with
  | [] => none
  | _ :: _ =>
    let headers : List TCell :=
      viewConfig.columns.filterMap (fun p =>
        match p.2 with
        | none => none
        | some cfg =>
          if cfg.isNeededForView = some false then none
          else
            some
              { field := p.1
                value := (jsOrStr cfg.displayName
                    (jsOrStr cfg.columnName (some p.1))).getD p.1
                format := mapFormatType cfg.format })
    if headers = [] then none
    else
      some (.table headers (rowMaps.map (fun row =>
        headers.map (fun header =>
          let rawValue := (assocGet row header.field).getD ""
          { field := header.field
            value := normalizeCellValue rawValue header.format
            format := header.format }))))

/-- Embeds `transformTableauData(useCase, viewKey, rawData)` with the view
catalog of the use case passed explicitly (`tableau-views.json` is looked
up per `viewKey`; a missing/invalid entry yields `null`). The raw payload
is modelled as a string, so the source's `typeof rawData !== "string"`
guard always passes. -/
def transformTableauData (catalog : List (String × Option ViewCfg))
    (viewKey : String) (rawData : String) : Option TransformedView :=
  match (assocGet catalog viewKey).bind id with
  | none => none
  | some viewConfig =>
    match viewConfig.viewType with
    | none => none
    | some viewType =>
      if viewType = "" then none
      else
        let rowMaps := parseCsvToRowMaps viewConfig rawData
        if rowMaps = [] then none
        else if viewType = "FLAG_CARD" then
          transformFlagCardFromRowMaps viewConfig rowMaps
        else if viewType = "TABLE" then
          transformTableFromRowMaps viewConfig rowMaps
        else none

/-- Embeds `transformViewDataMap(useCase, viewDataMap)`: transform each entry,
skipping the ones that yield `null`; result keeps map order. -/
def transformViewDataMap (catalog : List (String × Option ViewCfg))
    (viewDataMap : List (String × String)) : List (String × TransformedView) :=
  viewDataMap.foldl
    (fun acc p =>
      match transformTableauData catalog p.1 p.2 with
      | some t => acc ++ [(p.1, t)]
      | none => acc) []

/-! ### `buildTableFromConfig` (src/utils/pptx-helpers.util.js)

Only the data-shape part of the builder is embedded: the emitted
`tableDataArray` is the header row followed by one emitted row per input
row, where each emitted row walks `headers` (`headers.map` over
`colIndex`). Border and style options do not affect the shape. -/

/-- An emitted PptxGenJS table cell: its rendered text. -/
structure EmittedCell where
  text : String
  deriving DecidableEq, Repr

/-- The text of one emitted data cell. The source reads
`row[colIndex] || {value:"",format:STRING}` and then
`cellData.value || cellData`, so an absent cell or an empty-string value
makes `formatDataValue` receive an object, which coerces to
`"[object Object]"`. -/
def emittedCellText (cellValue : String) (fmt : String) : String :=
  if cellValue = "" then "[object Object]" else formatDataValue (some cellValue) fmt

/-- The data rows of `buildTableFromConfig(tableData, config)`: one row
per input row, one cell per header position (`headers.map` with
`colIndex`). A missing cell at `colIndex` falls back to the default
`{value:"", format:STRING}` cell; the cell format is
`cellData.format || header.format || STRING`. -/
def buildTableDataRows (headers : List TCell) (rows : List (List TCell)) :
    List (List EmittedCell) :=
  rows.map (fun row =>
    headers.enum.map (fun hi =>
      match row.get? hi.1 with
      | some cellData =>
        ⟨emittedCellText cellData.value
          ((jsOrStr (some cellData.format)
              (jsOrStr (some hi.2.format) (some FORMAT_STRING))).getD
            FORMAT_STRING)⟩
      | none => ⟨emittedCellText "" FORMAT_STRING⟩))

/-! ### TableauService credential resolution (ppt-config.service.js) -/

/-- ASCII uppercase of one character (site names and format names in this
codebase are ASCII, so this matches `toUpperCase`). -/
def jsCharUpper (c : Char) : Char :=
  if 'a' ≤ c ∧ c ≤ 'z' then Char.ofNat (c.toNat - 32) else c

/-- Uppercases the site name and replaces every hyphen with an
underscore (`siteName.toUpperCase().replace(hyphen, "_")` globally). -/
def siteKeyOf (siteName : String) : String :=
  ⟨siteName.data.map (fun c =>
    let u := jsCharUpper c
    if u = '-' then '_' else u)⟩

/-- Embeds `_getCredentialsForSite(siteName)`: with a truthy site name, read the
site-specific `<SITE_KEY>_PAT_NAME` / `<SITE_KEY>_PAT_SECRET` environment
variables, falling back (`||`) to the constructor-captured defaults
(`TABLEAU_PAT_NAME` / `TABLEAU_PAT_SECRET`); with an absent or empty site
name, return the defaults. `env` is `process.env` as an association list;
`defaultName`/`defaultSecret` are `this.patName`/`this.patSecret`. -/
def getCredentialsForSite (env : List (String × String))
    (defaultName defaultSecret : Option String) (siteName : Option String) :
    Option String × Option String :=
  match siteName with
  | none => (defaultName, defaultSecret)
  | some s =>
    if s = "" then (defaultName, defaultSecret)
    else
      let siteKey := siteKeyOf s
      (jsOrStr (assocGet env (siteKey ++ "_PAT_NAME")) defaultName,
        jsOrStr (assocGet env (siteKey ++ "_PAT_SECRET")) defaultSecret)

/-- The PAT credentials `authenticate(siteName)` actually places in the
sign-in payload: the source calls `this._getCredentialsForSite()` with no
argument, so the `siteName` parameter never reaches the helper. -/
def authenticateCredentials (env : List (String × String))
    (defaultName defaultSecret : Option String) (_siteName : String) :
    Option String × Option String :=
  getCredentialsForSite env defaultName defaultSecret none

/-! ### TableauService token cache (ppt-config.service.js)

`getValidToken` is embedded as a step function on the service state. Its
synchronous section (cache check, `authPromises` check, promise
registration) runs atomically on the JavaScript event loop; an `await`
boundary separates steps, so a trace of calls interleaved with
resolutions captures every schedule. -/

/-- Constant `TOKEN_BUFFER_TIME_MS = 10 * 60 * 1000`. -/
def TOKEN_BUFFER_TIME_MS : Int := 10 * 60 * 1000

/-- Constant `TOKEN_LIFETIME_MS = 2 * 60 * 60 * 1000`. -/
def TOKEN_LIFETIME_MS : Int := 2 * 60 * 60 * 1000

/-- One `authCache` entry `{token, siteId, expiresAt}`; a `null` token is
modelled by `""` (the constructor default entry is `⟨"", "", 0⟩`). -/
structure AuthCacheEntry where
  token : String
  siteId : String
  expiresAt : Int
  deriving DecidableEq, Repr

/-- The mutable TableauService state: `authCache` and `authPromises`
(site name → identifier of the pending `authenticate` promise). -/
structure AuthState where
  authCache : List (String × AuthCacheEntry)
  authPromises : List (String × Nat)
  nextPromiseId : Nat
  deriving DecidableEq, Repr

/-- What one `getValidToken(siteName)` call does before its first await:
return cached credentials, await an existing in-flight promise, start a
new `authenticate` call, or throw on a missing site name. -/
inductive TokenOutcome where
  | missingSite
  | cached (token siteId : String)
  | joined (pid : Nat)
  | started (pid : Nat)
  deriving DecidableEq, Repr

/-- Number of outgoing `/auth/signin` requests a call outcome issues:
only starting a fresh `authenticate` issues one. -/
def authRequestsOf : TokenOutcome → Nat
  | .started _ => 1
  | _ => 0

/-- The cache-validity test of `getValidToken`:
`cache.token && now < cache.expiresAt - TOKEN_BUFFER_TIME_MS`. -/
def cacheValidAt (s : AuthState) (siteName : String) (now : Int) : Bool :=
  let cache := (assocGet s.authCache siteName).getD ⟨"", "", 0⟩
  cache.token ≠ "" ∧ now < cache.expiresAt - TOKEN_BUFFER_TIME_MS

/-- The synchronous section of `getValidToken(siteName)` at time `now`. -/
def getValidTokenStep (s : AuthState) (siteName : String) (now : Int) :
    AuthState × TokenOutcome :=
  if siteName = "" then (s, .missingSite)
  else
    let cache := (assocGet s.authCache siteName).getD ⟨"", "", 0⟩
    if cacheValidAt s siteName now then
      (s, .cached cache.token cache.siteId)
    else
      match assocGet s.authPromises siteName with
      | some pid => (s, .joined pid)
      | none =>
        ({ s with
            authPromises := assocSet s.authPromises siteName s.nextPromiseId
            nextPromiseId := s.nextPromiseId + 1 },
          .started s.nextPromiseId)

/-- Resolution of a successful `authenticate(siteName)`: cache the token
with a two-hour lifetime and (the `.finally`) drop the pending promise. -/
def resolveAuthSuccess (s : AuthState) (siteName token siteId : String)
    (now : Int) : AuthState :=
  { s with
      authCache :=
        assocSet s.authCache siteName ⟨token, siteId, now + TOKEN_LIFETIME_MS⟩
      authPromises := s.authPromises.filter (fun p => p.1 ≠ siteName) }

/-- Runs a burst of `getValidToken` calls (site name, time) with no
interleaved resolutions, counting issued `/auth/signin` requests. -/
def runGetValidTokenCalls (s : AuthState) :
    List (String × Int) → AuthState × Nat
  | [] => (s, 0)
  | c :: rest =>
    ((runGetValidTokenCalls (getValidTokenStep s c.1 c.2).1 rest).1,
      authRequestsOf (getValidTokenStep s c.1 c.2).2 +
        (runGetValidTokenCalls (getValidTokenStep s c.1 c.2).1 rest).2)

/-! ### `fetchViewsDataInParallel` (ppt-config.service.js)

Network effects are passed in as data: `workbookResult` and
`viewsResult` are the outcomes of `getWorkbookByName` /
`getWorkbookViews`, and `fetchData viewId` is the outcome of
`exportData` for that view id (`none` = the call threw). -/

/-- One entry of the `viewConfigs` argument. -/
structure FetchViewConfig where
  viewName : String
  viewKey : String
  filters : List (String × String)
  deriving DecidableEq, Repr

/-- One entry of the workbook's view listing (`viewUrlName`, `id`). -/
structure ViewInfo where
  viewUrlName : String
  id : String
  deriving DecidableEq, Repr

/-- The per-view task of the batch loop: resolve the view id from the
`viewNameToIdMap` and run `exportData`; a failure is recorded in the
result, not thrown. -/
structure ViewFetchResult where
  viewKey : String
  success : Bool
  data : String
  deriving DecidableEq, Repr

/-- The body of `batch.map(async (viewConfig) => ...)`. -/
def processViewConfig (viewNameToId : List (String × String))
    (fetchData : String → List (String × String) → Option String)
    (vc : FetchViewConfig) : ViewFetchResult :=
  match assocGet viewNameToId vc.viewName with
  | none => ⟨vc.viewKey, false, ""⟩
  | some viewId =>
    match fetchData viewId vc.filters with
    | some d => ⟨vc.viewKey, true, d⟩
    | none => ⟨vc.viewKey, false, ""⟩

/-- Embeds `batchResults.forEach(...)`: successful results are `Map.set` into the
accumulator, failures are logged and skipped. -/
def collectBatchResults (results : List (String × String))
    (batchResults : List ViewFetchResult) : List (String × String) :=
  batchResults.foldl
    (fun acc r => if r.success then assocSet acc r.viewKey r.data else acc)
    results

/-- The batched fetch loop over `viewConfigs` with the given concurrency. -/
def fetchViewsLoop (viewNameToId : List (String × String))
    (fetchData : String → List (String × String) → Option String)
    (concurrency : Nat)
    (viewConfigs : List FetchViewConfig) : List (String × String) :=
  (chunkListFuel (viewConfigs.length + 1) concurrency viewConfigs).foldl
    (fun acc batch =>
      collectBatchResults acc (batch.map (processViewConfig viewNameToId fetchData)))
    []

/-- The effect of one view config on the result map: a successful fetch
`Map.set`s its data under `viewKey`, a failed one leaves the map alone.
(The batch loop is equivalent to folding this over the whole list.) -/
def fetchFold (viewNameToId : List (String × String))
    (fetchData : String → List (String × String) → Option String)
    (acc : List (String × String)) (vc : FetchViewConfig) :
    List (String × String) :=
  if (processViewConfig viewNameToId fetchData vc).success then
    assocSet acc (processViewConfig viewNameToId fetchData vc).viewKey
      (processViewConfig viewNameToId fetchData vc).data
  else acc

/-- Embeds `fetchViewsDataInParallel(viewConfigs, workbookName, siteName,
concurrency)`. `viewConfigs = none` models a non-array argument; errors
carry the thrown messages of the source. -/
def fetchViewsDataInParallel (viewConfigs : Option (List FetchViewConfig))
    (workbookName siteName : Option String) (concurrency : Nat)
    (workbookResult : Except String Unit)
    (viewsResult : Except String (List ViewInfo))
    (fetchData : String → List (String × String) → Option String) :
    Except String (List (String × String)) :=
  if ¬jsTruthy siteName then
    .error "siteName is required for fetchViewsDataInParallel"
  else if ¬jsTruthy workbookName then
    .error "workbookName is required for fetchViewsDataInParallel"
  else
    match viewConfigs with
    | none => .error "viewConfigs array is required and must not be empty"
    | some [] => .error "viewConfigs array is required and must not be empty"
    | some l@(_ :: _) =>
      match workbookResult with
      | .error e => .error ("Failed to fetch views data: " ++ e)
      | .ok _ =>
        match viewsResult with
        | .error e => .error ("Failed to fetch views data: " ++ e)
        | .ok views =>
          let viewNameToIdMap :=
            views.foldl (fun m v => assocSet m v.viewUrlName v.id) []
          .ok (fetchViewsLoop viewNameToIdMap fetchData concurrency l)

/-- Whether one view config's individual fetch succeeds: the view name
resolves to an id and `exportData` on that id succeeds. -/
def viewFetchSucceeds (viewNameToId : List (String × String))
    (fetchData : String → List (String × String) → Option String)
    (vc : FetchViewConfig) : Bool :=
  ((assocGet viewNameToId vc.viewName).bind
    (fun viewId => fetchData viewId vc.filters)).isSome

/-! ### `processExport` (ExportPptService) and the use-case config step -/

/-- Embeds `PoliticalSnapshotService.getPptConfig` up to its error checks: the
slide mapping must exist and `viewData` must be non-empty, otherwise it
throws; building the eleven slides and the manifest is abstracted to
`.ok ()` because only the error behavior is at issue here. -/
def politicalGetPptConfigCheck (slideMappingExists : Bool)
    (viewData : List (String × TransformedView)) : Except String Unit :=
  if ¬slideMappingExists then
    .error "Slide mapping not found for usecase: POLITICAL_SNAPSHOT"
  else if viewData.length = 0 then
    .error "viewData is required for PPT generation"
  else .ok ()

/-- Embeds `PptConfigService.getPptConfig` routing: only `POLITICAL_SNAPSHOT`
is registered in `useCaseServices`. -/
def pptConfigServiceGetPptConfig (slideMappingExists : Bool)
    (useCase : String) (viewData : List (String × TransformedView)) :
    Except String Unit :=
  if useCase = "POLITICAL_SNAPSHOT" then
    politicalGetPptConfigCheck slideMappingExists viewData
  else .error ("Unknown use case: " ++ useCase ++
    ". Supported use cases: POLITICAL_SNAPSHOT")

/-- Embeds `ExportPptService.processExport(jobData)` from the use-case lookup to
the PPT-config step. The parallel fetch outcome is passed as data
(`fetchResult`); PPT rendering and email sending, which follow a
successful config step, are abstracted to `.ok ()`. -/
def processExportModel (usecaseMapping : List (String × (String × String)))
    (catalog : List (String × Option ViewCfg)) (slideMappingExists : Bool)
    (useCase : Option String)
    (fetchResult : Except String (List (String × String))) :
    Except String Unit :=
  match useCase with
  | none => .error "useCase is required for export job"
  | some u =>
    if u = "" then .error "useCase is required for export job"
    else
      match assocGet usecaseMapping u with
      | none => .error ("Use case \"" ++ u ++ "\" not found in usecase-mapping.json")
      | some _ =>
        match fetchResult with
        | .error e => .error e
        | .ok viewDataMap =>
          if viewDataMap.length = 0 then
            .error "No view data was successfully fetched from Tableau"
          else
            pptConfigServiceGetPptConfig slideMappingExists u
              (transformViewDataMap catalog viewDataMap)

/-! ### JobService queue (ppt-config.service.js) and the BullMQ worker -/

/-- One stored job record (the fields `failJobById` touches). -/
structure StoredJob where
  status : String
  attempts : Nat
  maxAttempts : Nat
  errMsg : Option String
  deriving DecidableEq, Repr

/-- The Redis state the legacy `JobService` manipulates: the `job:queue`
list (`rpush` appends, `lpop` pops the front), the `job:processing` set
and the per-job records. -/
structure QueueState where
  queue : List String
  processing : List String
  jobs : List (String × StoredJob)
  deriving DecidableEq, Repr

/-- Embeds `JobService.failJobById(jobId, error)`: below `maxAttempts` the job is
reset to `pending` and `rpush`ed straight back onto the waiting queue —
in the same step, with no delay — otherwise it is marked `failed`. -/
def failJobById (s : QueueState) (jobId : String) (message : String) :
    QueueState :=
  match assocGet s.jobs jobId with
  | none => s
  | some job =>
    let attempts := job.attempts + 1
    if attempts < job.maxAttempts then
      { queue := s.queue ++ [jobId]
        processing := s.processing.filter (fun j => j ≠ jobId)
        jobs := assocSet s.jobs jobId
          { job with status := "pending", attempts := attempts,
                     errMsg := some message } }
    else
      { queue := s.queue
        processing := s.processing.filter (fun j => j ≠ jobId)
        jobs := assocSet s.jobs jobId
          { job with status := "failed", attempts := attempts,
                     errMsg := some message } }

/-- Modelled from the spec: the scheduling delay BullMQ applies to the
export queue's jobs. The queue is configured in worker.service.js with
`backoff: {type: "exponential", delay: 1000}`; BullMQ's built-in
exponential backoff (library code, not part of this repository) delays
the retry after the n-th failure by `delay · 2^(n−1)` ms, with no cap. -/
def exportQueueBackoffDelayMs (n : Nat) : Nat := 1000 * 2 ^ (n - 1)

/-- Outcome of the BullMQ worker processor's catch block. -/
structure WorkerFailOutcome where
  emailAttempted : Bool
  emailPathResult : Option (Except String Unit)
  rethrown : String
  deriving Repr

/-- Embeds `ExportPptService.sendFailureEmail`: any error of the underlying
`sendSimpleEmail` call is caught and logged, never propagated. -/
def sendFailureEmailModel (sendSimpleResult : Except String Unit) :
    Except String Unit :=
  match sendSimpleResult with
  | .ok _ => .ok ()
  | .error _ => .ok ()

/-- The catch block of the worker processor in worker.service.js: on the
final attempt (`attemptsMade + 1 >= opts.attempts`) with a truthy email
and use case, `sendFailureEmail` is attempted inside its own try/catch;
the original error is always rethrown. -/
def workerProcessorOnFailure (message : String)
    (attemptsMade optsAttempts : Nat) (email useCase : String)
    (sendSimpleResult : Except String Unit) : WorkerFailOutcome :=
  if attemptsMade + 1 ≥ optsAttempts ∧ email ≠ "" ∧ useCase ≠ "" then
    { emailAttempted := true
      emailPathResult := some (sendFailureEmailModel sendSimpleResult)
      rethrown := message }
  else
    { emailAttempted := false
      emailPathResult := none
      rethrown := message }

/-! ## Shared lemmas -/

theorem find?_map_update_self (m : List (String × α)) (k : String) (v : α)
    (h : m.any (fun p => p.1 = k) = true) :
    (m.map (fun p => if p.1 = k then (k, v) else p)).find?
      (fun p => p.1 = k) = some (k, v) := by
  induction m with
  | nil => simp at h
  | cons p t ih =>
    by_cases hp : p.1 = k
    · simp only [List.map_cons, if_pos hp]
      exact List.find?_cons_of_pos _ (by simp)
    · simp only [List.any_cons, Bool.or_eq_true, decide_eq_true_eq] at h
      have ht : t.any (fun p => p.1 = k) = true := by
        rcases h with h | h
        · exact absurd h hp
        · exact h
      simp only [List.map_cons, if_neg hp]
      rw [List.find?_cons_of_neg _ (by simpa using hp)]
      exact ih ht

theorem assocGet_set_self (m : List (String × α)) (k : String) (v : α) :
    assocGet (assocSet m k v) k = some v := by
  unfold assocSet
  split
  · rename_i h
    unfold assocGet
    rw [find?_map_update_self m k v h]
    rfl
  · unfold assocGet
    rw [List.find?_append, List.find?_eq_none.mpr (by
      intro x hx
      rename_i hno
      intro hx1
      have : m.any (fun p => p.1 = k) = true :=
        List.any_eq_true.mpr ⟨x, hx, hx1⟩
      simp [this] at hno)]
    simp

theorem find?_map_update_ne (m : List (String × α)) (k k' : String) (v : α)
    (h : k' ≠ k) :
    (m.map (fun p => if p.1 = k then (k, v) else p)).find?
      (fun p => p.1 = k') = m.find? (fun p => p.1 = k') := by
  induction m with
  | nil => simp
  | cons p t ih =>
    by_cases hq : p.1 = k'
    · have hpk : ¬p.1 = k := fun hh => h (hq.symm.trans hh)
      simp only [List.map_cons, if_neg hpk]
      rw [List.find?_cons_of_pos _ (by simpa using hq),
        List.find?_cons_of_pos _ (by simpa using hq)]
    · by_cases hp : p.1 = k
      · simp only [List.map_cons, if_pos hp]
        rw [List.find?_cons_of_neg _ (by simpa using Ne.symm h),
          List.find?_cons_of_neg _ (by simpa using hq)]
        exact ih
      · simp only [List.map_cons, if_neg hp]
        rw [List.find?_cons_of_neg _ (by simpa using hq),
          List.find?_cons_of_neg _ (by simpa using hq)]
        exact ih

theorem assocGet_set_ne (m : List (String × α)) (k k' : String) (v : α)
    (h : k' ≠ k) : assocGet (assocSet m k v) k' = assocGet m k' := by
  unfold assocSet
  split
  · unfold assocGet
    rw [find?_map_update_ne m k k' v h]
  · unfold assocGet
    rw [List.find?_append]
    have : ([(k, v)].find? (fun p => p.1 = k')) = none := by
      simp [List.find?, Ne.symm h]
    rw [this]
    simp

theorem chunkListFuel_flatten (fuel c : Nat) (l : List α) (hc : c ≠ 0)
    (hl : l.length ≤ fuel) : (chunkListFuel fuel c l).flatten = l := by
  induction fuel generalizing l with
  | zero =>
    cases l with
    | nil => simp [chunkListFuel]
    | cons a t => simp at hl
  | succ fuel ih =>
    cases l with
    | nil => simp [chunkListFuel]
    | cons a t =>
      have hstep : chunkListFuel (fuel + 1) c (a :: t) =
          (a :: t).take c :: chunkListFuel fuel c ((a :: t).drop c) := rfl
      simp only [List.length_cons] at hl
      rw [hstep, List.flatten_cons,
        ih ((a :: t).drop c) (by
          simp only [List.length_drop, List.length_cons]
          omega),
        List.take_append_drop]

/-! ## Claim theorems -/

/-- C1: the claim says `authenticate(site)` takes the PAT name/secret
from the site-specific `<SITE_UPPER>_PAT_NAME` / `<SITE_UPPER>_PAT_SECRET`
environment variables, falling back to the globals only when they are
unset. The source's `authenticate` calls `_getCredentialsForSite()` with
no argument, so it always signs in with the global credentials: at the
failing input below, the payload carries the global PAT even though both
site-specific variables are set — this contradicts the helper's own
documentation and the spec, so it is a code bug. -/
theorem c1_authenticate_ignores_site_credentials :
    authenticateCredentials
      [("TABLEAU_PAT_NAME", "global-pat"), ("TABLEAU_PAT_SECRET", "global-secret"),
        ("MIQDIGITAL_US_PAT_NAME", "site-pat"),
        ("MIQDIGITAL_US_PAT_SECRET", "site-secret")]
      (some "global-pat") (some "global-secret") "miqdigital-us" =
      (some "global-pat", some "global-secret") ∧
    getCredentialsForSite
      [("TABLEAU_PAT_NAME", "global-pat"), ("TABLEAU_PAT_SECRET", "global-secret"),
        ("MIQDIGITAL_US_PAT_NAME", "site-pat"),
        ("MIQDIGITAL_US_PAT_SECRET", "site-secret")]
      (some "global-pat") (some "global-secret") (some "miqdigital-us") =
      (some "site-pat", some "site-secret") := by
  constructor
  · rfl
  · rfl

/-- C7 counterexample: the claim says `formatValue("1,234", NUMBER)`
returns `"1,234"`, but `parseFloat("1,234")` stops at the comma and
yields `1`, so the source returns `"1"`. -/
theorem c7_counterexample :
    formatDataValue (some "1,234") FORMAT_NUMBER ≠ "1,234" := by decide

/-- C7 (amended): `formatValue("1,234", NUMBER)` returns `"1"` (parseFloat
stops at the comma); the other three examples hold as claimed:
`formatValue("12.345", DECIMAL) = "12.35"`,
`formatValue("57.03", PERCENTAGE) = "57.03%"`, and
`formatValue("1234", CURRENCY) = "$1,234"` (en-US locale grouping). -/
theorem c7_format_value_examples :
    formatDataValue (some "1,234") FORMAT_NUMBER = "1" ∧
    formatDataValue (some "12.345") FORMAT_DECIMAL = "12.35" ∧
    formatDataValue (some "57.03") FORMAT_PERCENTAGE = "57.03%" ∧
    formatDataValue (some "1234") FORMAT_CURRENCY = "$1,234" := by
  refine ⟨?_, ?_, ?_, ?_⟩ <;> decide

/-- C6: when processing a job throws, the worker attempts the
failure-notification email only when `attemptsMade + 1 ≥ opts.attempts`
(and the job data has a truthy email and use case); the email path's own
result is always `.ok` because `sendFailureEmail` swallows its errors
(and the worker wraps the call in its own try/catch); and the original
error is rethrown unchanged as the job's `failedReason`. -/
theorem c6_failure_email_best_effort (message : String)
    (attemptsMade optsAttempts : Nat) (email useCase : String)
    (sendSimpleResult : Except String Unit) :
    (workerProcessorOnFailure message attemptsMade optsAttempts email useCase
        sendSimpleResult).rethrown = message ∧
    ((workerProcessorOnFailure message attemptsMade optsAttempts email useCase
        sendSimpleResult).emailAttempted = true →
      attemptsMade + 1 ≥ optsAttempts) ∧
    (∀ r, (workerProcessorOnFailure message attemptsMade optsAttempts email
        useCase sendSimpleResult).emailPathResult = some r → r = .ok ()) := by
  unfold workerProcessorOnFailure
  split
  · rename_i h
    refine ⟨rfl, fun _ => h.1, fun r hr => ?_⟩
    simp only [Option.some.injEq] at hr
    rw [← hr]
    unfold sendFailureEmailModel
    cases sendSimpleResult <;> rfl
  · exact ⟨rfl, by simp, by simp⟩

/-- C6 witness: a concrete final-attempt failure with a failing email
path: the email is attempted, its error is swallowed, and the original
error is rethrown. -/
theorem c6_witness :
    (workerProcessorOnFailure "boom" 2 3 "a@b.co" "POLITICAL_SNAPSHOT"
        (.error "smtp down")).rethrown = "boom" ∧
    ((workerProcessorOnFailure "boom" 2 3 "a@b.co" "POLITICAL_SNAPSHOT"
        (.error "smtp down")).emailAttempted = true → 2 + 1 ≥ 3) ∧
    (∀ r, (workerProcessorOnFailure "boom" 2 3 "a@b.co" "POLITICAL_SNAPSHOT"
        (.error "smtp down")).emailPathResult = some r → r = .ok ()) :=
  c6_failure_email_best_effort "boom" 2 3 "a@b.co" "POLITICAL_SNAPSHOT"
    (.error "smtp down")

/-- C5 counterexample: `JobService.failJobById` on a first failure
(1 ≤ n < maxAttempts = 3) pushes the job id straight back onto the
waiting queue in the very same step — the retry is available with zero
delay, not after `base·2^(n−1)` ms. -/
theorem c5_counterexample :
    (failJobById ⟨[], ["j1"], [("j1", ⟨"processing", 0, 3, none⟩)]⟩
        "j1" "boom").queue = ["j1"] ∧
    assocGet (failJobById ⟨[], ["j1"], [("j1", ⟨"processing", 0, 3, none⟩)]⟩
        "j1" "boom").jobs "j1" = some ⟨"pending", 1, 3, some "boom"⟩ := by
  constructor
  · rfl
  · rfl

/-- C5 (amended): jobs on the BullMQ export queue are retried after
`1000·2^(n−1)` ms (exponential backoff, base 1 s, no configured cap — the
queue options in worker.service.js set no ceiling), which is positive for
every attempt; but jobs handled by the legacy `JobService` are `rpush`ed
back onto the waiting queue immediately (zero delay) whenever
`attempts + 1 < maxAttempts`. -/
theorem c5_retry_timing (n : Nat) (s : QueueState) (jobId message : String)
    (job : StoredJob) (_hn : 1 ≤ n) (hj : assocGet s.jobs jobId = some job)
    (hr : job.attempts + 1 < job.maxAttempts) :
    (exportQueueBackoffDelayMs n = 1000 * 2 ^ (n - 1) ∧
      0 < exportQueueBackoffDelayMs n) ∧
    (failJobById s jobId message).queue = s.queue ++ [jobId] := by
  refine ⟨⟨rfl, ?_⟩, ?_⟩
  · unfold exportQueueBackoffDelayMs
    positivity
  · unfold failJobById
    rw [hj]
    simp only [if_pos hr]

/-- C5 witness: the amended statement at the concrete first failure of a
three-attempt job. -/
theorem c5_witness :
    (exportQueueBackoffDelayMs 1 = 1000 * 2 ^ (1 - 1) ∧
      0 < exportQueueBackoffDelayMs 1) ∧
    (failJobById ⟨["j0"], ["j1"], [("j1", ⟨"processing", 0, 3, none⟩)]⟩
        "j1" "boom").queue = ["j0"] ++ ["j1"] :=
  c5_retry_timing 1 ⟨["j0"], ["j1"], [("j1", ⟨"processing", 0, 3, none⟩)]⟩
    "j1" "boom" ⟨"processing", 0, 3, none⟩ (by decide) (by decide) (by decide)

theorem cacheValidAt_update_promises (s : AuthState) (ap : List (String × Nat))
    (np : Nat) (siteName : String) (now : Int) :
    cacheValidAt { s with authPromises := ap, nextPromiseId := np } siteName now =
      cacheValidAt s siteName now := rfl

theorem getValidTokenStep_joined (s : AuthState) (siteName : String) (now : Int)
    (pid : Nat) (hne : siteName ≠ "")
    (hstale : cacheValidAt s siteName now = false)
    (hp : assocGet s.authPromises siteName = some pid) :
    getValidTokenStep s siteName now = (s, .joined pid) := by
  unfold getValidTokenStep
  rw [if_neg hne]
  simp only [hstale, Bool.false_eq_true, if_false, hp]

theorem runCalls_all_joined (s : AuthState) (siteName : String) (pid : Nat)
    (calls : List (String × Int))
    (hp : assocGet s.authPromises siteName = some pid)
    (hall : ∀ c ∈ calls, c.1 = siteName)
    (hstale : ∀ c ∈ calls, cacheValidAt s siteName c.2 = false)
    (hne : siteName ≠ "") :
    runGetValidTokenCalls s calls = (s, 0) := by
  induction calls with
  | nil => rfl
  | cons c rest ih =>
    have hc1 : c.1 = siteName := hall c (by simp)
    have hstep : getValidTokenStep s c.1 c.2 = (s, .joined pid) := by
      rw [hc1]
      exact getValidTokenStep_joined s siteName c.2 pid hne
        (hstale c (by simp)) hp
    unfold runGetValidTokenCalls
    rw [hstep]
    rw [ih (fun x hx => hall x (by simp [hx]))
      (fun x hx => hstale x (by simp [hx]))]
    rfl

/-- C4: `getValidToken(site)` returns the cached `{token, siteId}` with no
state change (and no outgoing request) whenever the cached entry has a
token and `now < expiresAt − 10min`; and when the cache misses, a burst
of concurrent calls for the same site with no interleaved resolution
issues exactly one outgoing `authenticate` request — the first caller
registers the per-site promise and every later caller awaits it. -/
theorem c4_token_cache_single_flight :
    (∀ (s : AuthState) (siteName : String) (now : Int) (e : AuthCacheEntry),
      siteName ≠ "" → assocGet s.authCache siteName = some e →
      e.token ≠ "" → now < e.expiresAt - TOKEN_BUFFER_TIME_MS →
      getValidTokenStep s siteName now = (s, .cached e.token e.siteId)) ∧
    (∀ (s : AuthState) (siteName : String) (calls : List (String × Int)),
      siteName ≠ "" → assocGet s.authPromises siteName = none →
      calls ≠ [] → (∀ c ∈ calls, c.1 = siteName) →
      (∀ c ∈ calls, cacheValidAt s siteName c.2 = false) →
      (runGetValidTokenCalls s calls).2 = 1) := by
  constructor
  · intro s siteName now e hne hc htok hfresh
    unfold getValidTokenStep
    rw [if_neg hne]
    have hvalid : cacheValidAt s siteName now = true := by
      unfold cacheValidAt
      rw [hc]
      simp [htok, hfresh]
    simp only [hvalid, if_true, hc, Option.getD_some]
  · intro s siteName calls hne hp hcne hall hstale
    cases calls with
    | nil => exact absurd rfl hcne
    | cons c rest =>
      have hc1 : c.1 = siteName := hall c (by simp)
      have hstep : getValidTokenStep s c.1 c.2 =
          ({ s with
              authPromises := assocSet s.authPromises siteName s.nextPromiseId
              nextPromiseId := s.nextPromiseId + 1 },
            .started s.nextPromiseId) := by
        rw [hc1]
        unfold getValidTokenStep
        rw [if_neg hne]
        simp only [hstale c (by simp), Bool.false_eq_true, if_false, hp]
      unfold runGetValidTokenCalls
      rw [hstep]
      rw [runCalls_all_joined _ siteName s.nextPromiseId rest
        (by simpa using assocGet_set_self s.authPromises siteName s.nextPromiseId)
        (fun x hx => hall x (by simp [hx]))
        (fun x hx => by
          rw [cacheValidAt_update_promises]
          exact hstale x (by simp [hx]))
        hne]
      rfl

/-- C4 witness: a fresh cached token is served without any request, and a
burst of three stale-cache calls on one site issues exactly one request. -/
theorem c4_witness :
    getValidTokenStep ⟨[("siteA", ⟨"tok", "sid", 10000000⟩)], [], 0⟩ "siteA" 0 =
      (⟨[("siteA", ⟨"tok", "sid", 10000000⟩)], [], 0⟩, .cached "tok" "sid") ∧
    (runGetValidTokenCalls ⟨[], [], 0⟩
        [("siteB", 0), ("siteB", 1), ("siteB", 2)]).2 = 1 :=
  ⟨c4_token_cache_single_flight.1 ⟨[("siteA", ⟨"tok", "sid", 10000000⟩)], [], 0⟩
      "siteA" 0 ⟨"tok", "sid", 10000000⟩ (by decide) (by decide) (by decide)
      (by decide),
    c4_token_cache_single_flight.2 ⟨[], [], 0⟩ "siteB"
      [("siteB", 0), ("siteB", 1), ("siteB", 2)] (by decide) (by decide)
      (by decide) (by decide) (by decide)⟩

theorem processViewConfig_success_eq (n : List (String × String))
    (f : String → List (String × String) → Option String)
    (vc : FetchViewConfig) :
    (processViewConfig n f vc).success = viewFetchSucceeds n f vc ∧
    (processViewConfig n f vc).viewKey = vc.viewKey := by
  unfold processViewConfig viewFetchSucceeds
  cases h : assocGet n vc.viewName with
  | none => simp [h]
  | some vid =>
    cases hf : f vid vc.filters with
    | none => simp [h, hf, Option.bind]
    | some d => simp [h, hf, Option.bind]

theorem fetchViewsLoop_eq_foldl (n : List (String × String))
    (f : String → List (String × String) → Option String) (c : Nat)
    (l : List FetchViewConfig)
    (hc : c ≠ 0) :
    fetchViewsLoop n f c l = l.foldl (fetchFold n f) [] := by
  unfold fetchViewsLoop
  have hmap : (fun (acc : List (String × String)) (batch : List FetchViewConfig) =>
      collectBatchResults acc (batch.map (processViewConfig n f))) =
      fun acc batch => batch.foldl (fetchFold n f) acc := by
    funext acc batch
    unfold collectBatchResults
    rw [List.foldl_map]
    rfl
  rw [hmap, ← List.foldl_flatten,
    chunkListFuel_flatten (l.length + 1) c l hc (by omega)]

theorem foldl_fetchFold_isSome (n : List (String × String))
    (f : String → List (String × String) → Option String)
    (l : List FetchViewConfig) (m : List (String × String)) (k : String) :
    (assocGet (l.foldl (fetchFold n f) m) k).isSome = true ↔
      ((assocGet m k).isSome = true ∨
        ∃ vc ∈ l, vc.viewKey = k ∧ viewFetchSucceeds n f vc = true) := by
  induction l generalizing m with
  | nil => simp
  | cons vc rest ih =>
    rw [List.foldl_cons, ih]
    have hkey := (processViewConfig_success_eq n f vc).2
    by_cases hs : viewFetchSucceeds n f vc = true
    · have hsucc : (processViewConfig n f vc).success = true := by
        rw [(processViewConfig_success_eq n f vc).1, hs]
      by_cases hk : vc.viewKey = k
      · have hset : (assocGet (fetchFold n f m vc) k).isSome = true := by
          unfold fetchFold
          rw [if_pos hsucc, hkey, hk, assocGet_set_self]
          rfl
        simp only [hset, true_or, true_iff]
        exact Or.inr ⟨vc, by simp, hk, hs⟩
      · have : assocGet (fetchFold n f m vc) k = assocGet m k := by
          unfold fetchFold
          rw [if_pos hsucc, hkey, assocGet_set_ne _ _ _ _ (fun hh => hk hh.symm)]
        rw [this]
        constructor
        · rintro (hm | ⟨vc', hvc', hkey', hsucc'⟩)
          · exact Or.inl hm
          · exact Or.inr ⟨vc', by simp [hvc'], hkey', hsucc'⟩
        · rintro (hm | ⟨vc', hvc', hkey', hsucc'⟩)
          · exact Or.inl hm
          · rcases List.mem_cons.mp hvc' with rfl | hvc'
            · exact absurd hkey' hk
            · exact Or.inr ⟨vc', hvc', hkey', hsucc'⟩
    · have : fetchFold n f m vc = m := by
        unfold fetchFold
        rw [(processViewConfig_success_eq n f vc).1,
          if_neg (by simpa using hs)]
      rw [this]
      constructor
      · rintro (hm | ⟨vc', hvc', hkey', hsucc'⟩)
        · exact Or.inl hm
        · exact Or.inr ⟨vc', by simp [hvc'], hkey', hsucc'⟩
      · rintro (hm | ⟨vc', hvc', hkey', hsucc'⟩)
        · exact Or.inl hm
        · rcases List.mem_cons.mp hvc' with rfl | hvc'
          · exact absurd hsucc' hs
          · exact Or.inr ⟨vc', hvc', hkey', hsucc'⟩

theorem foldl_fetchFold_all_fail (n : List (String × String))
    (f : String → List (String × String) → Option String)
    (l : List FetchViewConfig) (m : List (String × String))
    (h : ∀ vc ∈ l, viewFetchSucceeds n f vc = false) :
    l.foldl (fetchFold n f) m = m := by
  induction l generalizing m with
  | nil => rfl
  | cons vc rest ih =>
    rw [List.foldl_cons]
    have : fetchFold n f m vc = m := by
      unfold fetchFold
      rw [(processViewConfig_success_eq n f vc).1]
      rw [if_neg (by simp [h vc (by simp)])]
    rw [this]
    exact ih m (fun x hx => h x (by simp [hx]))

/-- C2: with a non-empty `viewConfigs` list and successful workbook and
view list lookups, `fetchViewsDataInParallel` returns (never throws) a
mapping whose keys are a subset of the input `viewKey`s, holding exactly
the views whose individual fetch succeeded; when every per-view fetch
fails the returned mapping is empty. -/
theorem c2_parallel_fetch (viewConfigs : List FetchViewConfig)
    (workbookName siteName : String) (concurrency : Nat)
    (views : List ViewInfo)
    (fetchData : String → List (String × String) → Option String)
    (hvc : viewConfigs ≠ []) (hwn : workbookName ≠ "") (hsn : siteName ≠ "")
    (hc : concurrency ≠ 0) :
    fetchViewsDataInParallel (some viewConfigs) (some workbookName)
        (some siteName) concurrency (.ok ()) (.ok views) fetchData =
      .ok (fetchViewsLoop
        (views.foldl (fun m v => assocSet m v.viewUrlName v.id) [])
        fetchData concurrency viewConfigs) ∧
    (∀ k, (assocGet (fetchViewsLoop
        (views.foldl (fun m v => assocSet m v.viewUrlName v.id) [])
        fetchData concurrency viewConfigs) k).isSome = true →
      k ∈ viewConfigs.map FetchViewConfig.viewKey) ∧
    (∀ k, (assocGet (fetchViewsLoop
        (views.foldl (fun m v => assocSet m v.viewUrlName v.id) [])
        fetchData concurrency viewConfigs) k).isSome = true ↔
      ∃ vc ∈ viewConfigs, vc.viewKey = k ∧
        viewFetchSucceeds
          (views.foldl (fun m v => assocSet m v.viewUrlName v.id) [])
          fetchData vc = true) ∧
    ((∀ vc ∈ viewConfigs,
        viewFetchSucceeds
          (views.foldl (fun m v => assocSet m v.viewUrlName v.id) [])
          fetchData vc = false) →
      fetchViewsLoop
        (views.foldl (fun m v => assocSet m v.viewUrlName v.id) [])
        fetchData concurrency viewConfigs = []) := by
  refine ⟨?_, ?_, ?_, ?_⟩
  · unfold fetchViewsDataInParallel
    simp only [jsTruthy, hsn, hwn]
    cases viewConfigs with
    | nil => exact absurd rfl hvc
    | cons v vs => simp [hsn, hwn]
  · intro k hk
    rw [fetchViewsLoop_eq_foldl _ _ _ _ hc, foldl_fetchFold_isSome] at hk
    rcases hk with hk | ⟨vc, hvc', hkey, _⟩
    · simp [assocGet] at hk
    · exact List.mem_map.mpr ⟨vc, hvc', hkey⟩
  · intro k
    rw [fetchViewsLoop_eq_foldl _ _ _ _ hc, foldl_fetchFold_isSome]
    simp [assocGet]
  · intro hall
    rw [fetchViewsLoop_eq_foldl _ _ _ _ hc]
    exact foldl_fetchFold_all_fail _ _ _ _ hall

/-- C2 witness: a single view config whose fetch fails (no matching view
in the workbook): the call returns `.ok` with the empty mapping. -/
theorem c2_witness :
    fetchViewsDataInParallel (some [⟨"v1", "K1", []⟩]) (some "wb")
        (some "site") 5 (.ok ()) (.ok []) (fun _ _ => none) =
      .ok (fetchViewsLoop
        (([] : List ViewInfo).foldl (fun m v => assocSet m v.viewUrlName v.id) [])
        (fun _ _ => none) 5 [⟨"v1", "K1", []⟩]) ∧
    (∀ k, (assocGet (fetchViewsLoop
        (([] : List ViewInfo).foldl (fun m v => assocSet m v.viewUrlName v.id) [])
        (fun _ _ => none) 5 [⟨"v1", "K1", []⟩]) k).isSome = true →
      k ∈ [(⟨"v1", "K1", []⟩ : FetchViewConfig)].map FetchViewConfig.viewKey) ∧
    (∀ k, (assocGet (fetchViewsLoop
        (([] : List ViewInfo).foldl (fun m v => assocSet m v.viewUrlName v.id) [])
        (fun _ _ => none) 5 [⟨"v1", "K1", []⟩]) k).isSome = true ↔
      ∃ vc ∈ [(⟨"v1", "K1", []⟩ : FetchViewConfig)], vc.viewKey = k ∧
        viewFetchSucceeds
          (([] : List ViewInfo).foldl (fun m v => assocSet m v.viewUrlName v.id) [])
          (fun _ _ => none) vc = true) ∧
    ((∀ vc ∈ [(⟨"v1", "K1", []⟩ : FetchViewConfig)],
        viewFetchSucceeds
          (([] : List ViewInfo).foldl (fun m v => assocSet m v.viewUrlName v.id) [])
          (fun _ _ => none) vc = false) →
      fetchViewsLoop
        (([] : List ViewInfo).foldl (fun m v => assocSet m v.viewUrlName v.id) [])
        (fun _ _ => none) 5 [⟨"v1", "K1", []⟩] = []) :=
  c2_parallel_fetch [⟨"v1", "K1", []⟩] "wb" "site" 5 [] (fun _ _ => none)
    (by simp) (by decide) (by decide) (by decide)

/-- C10: `fetchViewsDataInParallel` throws whenever `siteName` or
`workbookName` is missing or `viewConfigs` is not a non-empty array; and
whenever it returns an empty mapping, the input was a valid non-empty
config list and every individual fetch failed. -/
theorem c10_fetch_guards (viewConfigs : Option (List FetchViewConfig))
    (workbookName siteName : Option String) (concurrency : Nat)
    (wr : Except String Unit) (vr : Except String (List ViewInfo))
    (fetchData : String → List (String × String) → Option String) :
    (jsTruthy siteName = false →
      fetchViewsDataInParallel viewConfigs workbookName siteName concurrency
          wr vr fetchData =
        .error "siteName is required for fetchViewsDataInParallel") ∧
    (jsTruthy siteName = true → jsTruthy workbookName = false →
      fetchViewsDataInParallel viewConfigs workbookName siteName concurrency
          wr vr fetchData =
        .error "workbookName is required for fetchViewsDataInParallel") ∧
    (jsTruthy siteName = true → jsTruthy workbookName = true →
      (viewConfigs = none ∨ viewConfigs = some []) →
      fetchViewsDataInParallel viewConfigs workbookName siteName concurrency
          wr vr fetchData =
        .error "viewConfigs array is required and must not be empty") ∧
    (∀ m, concurrency ≠ 0 →
      fetchViewsDataInParallel viewConfigs workbookName siteName concurrency
          wr vr fetchData = .ok m →
      m = [] →
      ∃ l views, viewConfigs = some l ∧ l ≠ [] ∧ vr = .ok views ∧
        ∀ vc ∈ l,
          viewFetchSucceeds
            (views.foldl (fun mm v => assocSet mm v.viewUrlName v.id) [])
            fetchData vc = false) := by
  refine ⟨?_, ?_, ?_, ?_⟩
  · intro hs
    unfold fetchViewsDataInParallel
    simp [hs]
  · intro hs hw
    unfold fetchViewsDataInParallel
    simp [hs, hw]
  · intro hs hw hvc
    unfold fetchViewsDataInParallel
    rcases hvc with rfl | rfl <;> simp [hs, hw]
  · intro m hc hok hempty
    unfold fetchViewsDataInParallel at hok
    by_cases hs : jsTruthy siteName = true
    · by_cases hw : jsTruthy workbookName = true
      · rw [if_neg (by simp [hs]), if_neg (by simp [hw])] at hok
        cases hvcs : viewConfigs with
        | none => rw [hvcs] at hok; exact absurd hok (by simp)
        | some l =>
          cases l with
          | nil => rw [hvcs] at hok; exact absurd hok (by simp)
          | cons v vs =>
            rw [hvcs] at hok
            cases wr with
            | error e => exact absurd hok (by simp)
            | ok u =>
              cases vr with
              | error e => exact absurd hok (by simp)
              | ok views =>
                simp only [Except.ok.injEq] at hok
                refine ⟨v :: vs, views, rfl, by simp, rfl, ?_⟩
                intro vc hvc
                by_contra hsucc
                have hsome : (assocGet m vc.viewKey).isSome = true := by
                  rw [← hok, fetchViewsLoop_eq_foldl _ _ _ _ hc,
                    foldl_fetchFold_isSome]
                  exact Or.inr ⟨vc, hvc, rfl, by simpa using hsucc⟩
                rw [hempty] at hsome
                simp [assocGet] at hsome
      · rw [if_neg (by simp [hs]),
          if_pos (by simp [Bool.not_eq_true] at hw ⊢; simp [hw])] at hok
        exact absurd hok (by simp)
    · rw [if_pos (by simp [Bool.not_eq_true] at hs ⊢; simp [hs])] at hok
      exact absurd hok (by simp)

/-- C10 witness: the all-fail case of the guard theorem at a concrete
valid input whose only view fetch fails. -/
theorem c10_witness :
    ∃ l views, (some [(⟨"v1", "K1", []⟩ : FetchViewConfig)]) = some l ∧
      l ≠ [] ∧ (.ok [] : Except String (List ViewInfo)) = .ok views ∧
      ∀ vc ∈ l,
        viewFetchSucceeds
          (views.foldl (fun mm v => assocSet mm v.viewUrlName v.id) [])
          (fun _ _ => none) vc = false :=
  (c10_fetch_guards (some [⟨"v1", "K1", []⟩]) (some "wb") (some "site") 5
      (.ok ()) (.ok []) (fun _ _ => none)).2.2.2 [] (by decide) rfl rfl

/-- C3 counterexample: with a non-empty fetched map and a transform step
that yields an empty map (here: an empty view catalog), `processExport`
does not raise a distinct `AllTransformsFailed` error at the transform
step — the transform step returns the empty map without throwing, and the
error actually raised is the use-case service's
`viewData is required for PPT generation`, thrown inside `getPptConfig`. -/
theorem c3_counterexample :
    transformViewDataMap [] [("CHANNEL_DATA", "a,b\n1,2")] = [] ∧
    processExportModel [("POLITICAL_SNAPSHOT", ("PoliticalWorkbook", "miqdigital-us"))]
        [] true (some "POLITICAL_SNAPSHOT") (.ok [("CHANNEL_DATA", "a,b\n1,2")]) =
      .error "viewData is required for PPT generation" ∧
    (Except.error "viewData is required for PPT generation" :
        Except String Unit) ≠ .error "AllTransformsFailed" := by
  refine ⟨rfl, rfl, by simp⟩

/-- C3 (amended): when the transformed view-data map is empty while the
fetched map was non-empty, `processExport` does fail, but the error is
the `viewData is required for PPT generation` error raised by the
use-case service at the PPT-config step; no distinct `AllTransformsFailed`
error exists at the transform step. -/
theorem c3_empty_transform_fails_at_config_step
    (usecaseMapping : List (String × (String × String)))
    (catalog : List (String × Option ViewCfg))
    (fetched : List (String × String)) (wb : String × String)
    (hmap : assocGet usecaseMapping "POLITICAL_SNAPSHOT" = some wb)
    (hne : fetched ≠ [])
    (hempty : transformViewDataMap catalog fetched = []) :
    processExportModel usecaseMapping catalog true (some "POLITICAL_SNAPSHOT")
        (.ok fetched) = .error "viewData is required for PPT generation" := by
  unfold processExportModel
  dsimp only
  rw [if_neg (by decide), hmap]
  dsimp only
  have hlen : ¬fetched.length = 0 := by
    simpa [List.length_eq_zero] using hne
  rw [if_neg hlen]
  unfold pptConfigServiceGetPptConfig
  rw [if_pos rfl]
  unfold politicalGetPptConfigCheck
  rw [if_neg (by simp), hempty]
  rfl

/-- C3 witness: the amended statement at the counterexample's concrete
input. -/
theorem c3_witness :
    processExportModel [("POLITICAL_SNAPSHOT", ("PoliticalWorkbook", "miqdigital-us"))]
        [] true (some "POLITICAL_SNAPSHOT") (.ok [("CHANNEL_DATA", "a,b\n1,2")]) =
      .error "viewData is required for PPT generation" :=
  c3_empty_transform_fails_at_config_step
    [("POLITICAL_SNAPSHOT", ("PoliticalWorkbook", "miqdigital-us"))] []
    [("CHANNEL_DATA", "a,b\n1,2")] ("PoliticalWorkbook", "miqdigital-us")
    rfl (by simp) rfl

/-- C8 counterexample: the transformer emits a TABLE whose header
contains a schema field whose `isNeededForView` is absent (not `true`):
the source's filter keeps every field whose flag is not literally
`false`, so "headers consist only of fields whose isNeededForView is
true" fails. -/
theorem c8_counterexample :
    transformTableFromRowMaps
        ⟨some "v", some "TABLE", [("f", some ⟨some "F", none, none, none⟩)]⟩
        [[("f", "x")]] =
      some (.table [⟨"f", "F", "string"⟩] [[⟨"f", "x", "string"⟩]]) ∧
    (⟨some "F", none, none, none⟩ : ColCfg).isNeededForView ≠ some true := by
  refine ⟨rfl, by simp⟩

/-- C8 (amended): every TABLE the transformer produces has all data rows
exactly as long as the header list, and its headers are exactly the
present schema fields whose `isNeededForView` is not explicitly `false`
(so `true` or absent), in schema order; and every data row the assembly
builder emits has exactly one cell per header. -/
theorem c8_table_invariants :
    (∀ (cfg : ViewCfg) (rowMaps : List (List (String × String)))
        (headers : List TCell) (rows : List (List TCell)),
      transformTableFromRowMaps cfg rowMaps = some (.table headers rows) →
      (∀ r ∈ rows, r.length = headers.length) ∧
      headers.map TCell.field = cfg.columns.filterMap (fun p =>
        match p.2 with
        | none => none
        | some c => if c.isNeededForView = some false then none else some p.1)) ∧
    (∀ (headers : List TCell) (rows : List (List TCell)),
      ∀ r ∈ buildTableDataRows headers rows, r.length = headers.length) := by
  constructor
  · intro cfg rowMaps headers rows h
    unfold transformTableFromRowMaps at h
    cases rowMaps with
    | nil => exact absurd h (by simp)
    | cons rm rest =>
      simp only at h
      split at h
      · exact absurd h (by simp)
      · simp only [Option.some.injEq, TransformedView.table.injEq] at h
        obtain ⟨hh, hr⟩ := h
        constructor
        · intro r hrr
          rw [← hr] at hrr
          rcases List.mem_map.mp hrr with ⟨row, _, hrow⟩
          rw [← hrow, ← hh]
          simp
        · rw [← hh, List.map_filterMap]
          apply List.filterMap_congr
          intro p _
          cases p.2 with
          | none => rfl
          | some c =>
            by_cases hf : c.isNeededForView = some false
            · simp [hf]
            · simp [hf]
  · intro headers rows r hr
    rcases List.mem_map.mp hr with ⟨row, _, hrow⟩
    rw [← hrow]
    rw [List.length_map, List.enum_length]

/-- C8 witness: both invariants at the concrete one-column table of the
counterexample input. -/
theorem c8_witness :
    ((∀ r ∈ [[(⟨"f", "x", "string"⟩ : TCell)]],
        r.length = [(⟨"f", "F", "string"⟩ : TCell)].length) ∧
      [(⟨"f", "F", "string"⟩ : TCell)].map TCell.field =
        ([("f", some (⟨some "F", none, none, none⟩ : ColCfg))]).filterMap
          (fun p =>
            match p.2 with
            | none => none
            | some c =>
              if c.isNeededForView = some false then none else some p.1)) ∧
    (∀ r ∈ buildTableDataRows [(⟨"f", "F", "string"⟩ : TCell)]
        [[(⟨"f", "x", "string"⟩ : TCell)]],
      r.length = [(⟨"f", "F", "string"⟩ : TCell)].length) :=
  ⟨c8_table_invariants.1
      ⟨some "v", some "TABLE", [("f", some ⟨some "F", none, none, none⟩)]⟩
      [[("f", "x")]] [⟨"f", "F", "string"⟩] [[⟨"f", "x", "string"⟩]] rfl,
    c8_table_invariants.2 [⟨"f", "F", "string"⟩] [[⟨"f", "x", "string"⟩]]⟩

theorem parseCsvAux_nil (inQ : Bool) (rows : List (List (List Char)))
    (row : List (List Char)) (cell : List Char) :
    parseCsvAux inQ rows row cell [] = csvFlushEnd rows row cell := by
  cases inQ <;> rfl

theorem parseCsvAux_quote_close (rows : List (List (List Char)))
    (row : List (List Char)) (cell : List Char) (d : Char) (cs : List Char)
    (hd : d ≠ '"') :
    parseCsvAux true rows row cell ('"' :: d :: cs) =
      parseCsvAux false rows row cell (d :: cs) := by
  simp [parseCsvAux, hd]

theorem parseCsvAux_inq_char (rows : List (List (List Char)))
    (row : List (List Char)) (cell : List Char) (c : Char) (cs : List Char)
    (hc : c ≠ '"') :
    parseCsvAux true rows row cell (c :: cs) =
      parseCsvAux true rows row (cell ++ [c]) cs := by
  simp [parseCsvAux, hc]

theorem parseCsvAux_out_step (rows : List (List (List Char)))
    (row : List (List Char)) (cell : List Char) (c : Char) (cs : List Char) :
    parseCsvAux false rows row cell (c :: cs) =
      (if c = '"' then parseCsvAux true rows row cell cs
      else if c = ',' then parseCsvAux false rows (row ++ [cell]) [] cs
      else if c = '\r' then parseCsvAux false rows row cell cs
      else if c = '\n' then parseCsvAux false (csvCommitRow rows row cell) [] [] cs
      else parseCsvAux false rows row (cell ++ [c]) cs) := rfl

theorem parseCsvAux_consume_plain (cell : List Char)
    (rows : List (List (List Char))) (row : List (List Char))
    (acc rest : List Char)
    (h : ∀ c ∈ cell, ¬(c = ',' ∨ c = '"' ∨ c = '\n' ∨ c = '\r')) :
    parseCsvAux false rows row acc (cell ++ rest) =
      parseCsvAux false rows row (acc ++ cell) rest := by
  induction cell generalizing acc with
  | nil => simp
  | cons c cs ih =>
    have hc := h c (by simp)
    push_neg at hc
    rw [List.cons_append, parseCsvAux_out_step,
      if_neg hc.2.1, if_neg hc.1, if_neg hc.2.2.2, if_neg hc.2.2.1,
      ih (acc ++ [c]) (fun x hx => h x (by simp [hx]))]
    simp

theorem parseCsvAux_consume_quoted (cell : List Char)
    (rows : List (List (List Char))) (row : List (List Char))
    (acc rest : List Char) (hrest : rest.head? ≠ some '"') :
    parseCsvAux true rows row acc (csvEscape cell ++ '"' :: rest) =
      parseCsvAux false rows row (acc ++ cell) rest := by
  induction cell generalizing acc with
  | nil =>
    simp only [csvEscape, List.nil_append, List.append_nil]
    cases rest with
    | nil => rfl
    | cons d t =>
      have hd : d ≠ '"' := by
        intro hh
        rw [hh] at hrest
        simp at hrest
      exact parseCsvAux_quote_close rows row acc d t hd
  | cons c cs ih =>
    by_cases hc : c = '"'
    · subst hc
      have hesc : csvEscape ('"' :: cs) = '"' :: '"' :: csvEscape cs := by
        simp [csvEscape]
      rw [hesc, List.cons_append, List.cons_append,
        show parseCsvAux true rows row acc
          ('"' :: '"' :: (csvEscape cs ++ '"' :: rest)) =
          parseCsvAux true rows row (acc ++ ['"'])
            (csvEscape cs ++ '"' :: rest) from rfl,
        ih (acc ++ ['"'])]
      simp
    · have hesc : csvEscape (c :: cs) = c :: csvEscape cs := by
        simp [csvEscape, hc]
      rw [hesc, List.cons_append, parseCsvAux_inq_char _ _ _ c _ hc,
        ih (acc ++ [c])]
      simp

theorem parseCsvAux_consume_cell (cell : List Char)
    (rows : List (List (List Char))) (row : List (List Char))
    (acc rest : List Char) (hrest : rest.head? ≠ some '"') :
    parseCsvAux false rows row acc (csvCell cell ++ rest) =
      parseCsvAux false rows row (acc ++ cell) rest := by
  unfold csvCell
  by_cases hq : csvNeedsQuote cell = true
  · rw [if_pos hq]
    have hstep : parseCsvAux false rows row acc
        (('"' :: (csvEscape cell ++ ['"'])) ++ rest) =
        parseCsvAux true rows row acc (csvEscape cell ++ '"' :: rest) := by
      simp only [List.cons_append, List.append_assoc, List.singleton_append]
      rfl
    rw [hstep]
    exact parseCsvAux_consume_quoted cell rows row acc rest hrest
  · rw [if_neg hq]
    refine parseCsvAux_consume_plain cell rows row acc rest ?_
    intro c hc
    have hq' : cell.any
        (fun c => decide (c = ',' ∨ c = '"' ∨ c = '\n' ∨ c = '\r')) = false := by
      simpa [csvNeedsQuote] using hq
    have := List.any_eq_false.mp hq' c hc
    simpa using this

theorem csvFlushEnd_eq_commitFull (rows : List (List (List Char)))
    (row : List (List Char)) (cell : List Char) :
    csvFlushEnd rows row cell = csvCommitFull rows (row ++ [cell]) := by
  unfold csvFlushEnd csvCommitRow csvCommitFull
  by_cases h1 : cell ≠ [] ∨ row ≠ []
  · rw [if_pos h1]
  · push_neg at h1
    obtain ⟨hc, hr⟩ := h1
    subst hc
    subst hr
    simp

theorem parseCsvAux_consume_row (r : List (List Char))
    (rows : List (List (List Char))) (rowAcc : List (List Char))
    (rest : List Char) (hr : r ≠ []) :
    parseCsvAux false rows rowAcc [] (csvRow r ++ '\n' :: rest) =
      parseCsvAux false (csvCommitFull rows (rowAcc ++ r)) [] [] rest := by
  induction r generalizing rowAcc with
  | nil => exact absurd rfl hr
  | cons c cs ih =>
    cases cs with
    | nil =>
      rw [show csvRow [c] = csvCell c from rfl,
        parseCsvAux_consume_cell c rows rowAcc [] ('\n' :: rest) (by simp)]
      simp only [List.nil_append]
      rw [show parseCsvAux false rows rowAcc c ('\n' :: rest) =
        parseCsvAux false (csvCommitRow rows rowAcc c) [] [] rest from rfl]
      rfl
    | cons c2 cs2 =>
      rw [show csvRow (c :: c2 :: cs2) = csvCell c ++ ',' :: csvRow (c2 :: cs2)
          from rfl,
        List.append_assoc, List.cons_append,
        parseCsvAux_consume_cell c rows rowAcc []
          (',' :: (csvRow (c2 :: cs2) ++ '\n' :: rest)) (by simp)]
      simp only [List.nil_append]
      rw [show parseCsvAux false rows rowAcc c
          (',' :: (csvRow (c2 :: cs2) ++ '\n' :: rest)) =
          parseCsvAux false rows (rowAcc ++ [c]) []
            (csvRow (c2 :: cs2) ++ '\n' :: rest) from rfl,
        ih (rowAcc ++ [c]) (by simp)]
      simp

theorem parseCsvAux_consume_last_row (r : List (List Char))
    (rows : List (List (List Char))) (rowAcc : List (List Char))
    (hr : r ≠ []) :
    parseCsvAux false rows rowAcc [] (csvRow r) =
      csvCommitFull rows (rowAcc ++ r) := by
  induction r generalizing rowAcc with
  | nil => exact absurd rfl hr
  | cons c cs ih =>
    cases cs with
    | nil =>
      have hcell := parseCsvAux_consume_cell c rows rowAcc [] [] (by simp)
      rw [List.append_nil] at hcell
      rw [show csvRow [c] = csvCell c from rfl, hcell, parseCsvAux_nil]
      simp only [List.nil_append]
      rw [csvFlushEnd_eq_commitFull]
    | cons c2 cs2 =>
      rw [show csvRow (c :: c2 :: cs2) = csvCell c ++ ',' :: csvRow (c2 :: cs2)
          from rfl,
        parseCsvAux_consume_cell c rows rowAcc [] (',' :: csvRow (c2 :: cs2))
          (by simp)]
      simp only [List.nil_append]
      rw [show parseCsvAux false rows rowAcc c (',' :: csvRow (c2 :: cs2)) =
          parseCsvAux false rows (rowAcc ++ [c]) [] (csvRow (c2 :: cs2))
          from rfl,
        ih (rowAcc ++ [c]) (by simp)]
      simp

theorem parseCsvAux_consume_csv (L : List (List (List Char)))
    (rows : List (List (List Char))) (hr : ∀ r ∈ L, r ≠ []) :
    parseCsvAux false rows [] [] (csvOfRows L) =
      rows ++ L.filter (fun r => r.any (fun c => c ≠ [])) := by
  induction L generalizing rows with
  | nil =>
    rw [show csvOfRows [] = [] from rfl, parseCsvAux_nil]
    simp [csvFlushEnd]
  | cons r rest ih =>
    cases rest with
    | nil =>
      rw [show csvOfRows [r] = csvRow r from rfl,
        parseCsvAux_consume_last_row r rows [] (hr r (by simp))]
      simp only [List.nil_append]
      unfold csvCommitFull
      rw [List.filter_cons]
      by_cases hp : r.any (fun c => c ≠ []) = true
      · rw [if_pos hp, if_pos hp]
        simp
      · rw [if_neg hp, if_neg hp]
        simp
    | cons r2 rest2 =>
      rw [show csvOfRows (r :: r2 :: rest2) =
          csvRow r ++ '\n' :: csvOfRows (r2 :: rest2) from rfl,
        parseCsvAux_consume_row r rows [] _ (hr r (by simp))]
      rw [ih _ (fun x hx => hr x (by simp [hx]))]
      simp only [List.nil_append]
      unfold csvCommitFull
      conv_rhs => rw [List.filter_cons]
      by_cases hp : r.any (fun c => c ≠ []) = true
      · rw [if_pos hp, if_pos hp]
        simp
      · rw [if_neg hp, if_neg hp]

/-- C9 counterexample: the parser drops records whose fields are all
empty (`if (currentRow.some((c) => c !== ""))`). The text `","` is a
valid RFC 4180 file holding one record with two empty fields, but the
parser returns no records at all, so re-joining the returned cells does
not reproduce the original logical cells. -/
theorem c9_counterexample :
    csvOfRows [[[], []]] = [','] ∧
    parseCsvToRows (csvOfRows [[[], []]]) = [] ∧
    ([] : List (List (List Char))) ≠ [[[], []]] := by
  refine ⟨rfl, rfl, by simp⟩

/-- C9 (amended): for every list of logical records in which each record
has at least one field and at least one non-empty field, parsing the
canonical RFC 4180 rendering (cells re-quoted where needed, records
joined by newlines) returns exactly the original cells; records whose
fields are all empty are the only ones the parser drops. -/
theorem c9_roundtrip (L : List (List (List Char)))
    (hne : ∀ r ∈ L, r ≠ [])
    (hcell : ∀ r ∈ L, r.any (fun c => c ≠ []) = true) :
    parseCsvToRows (csvOfRows L) = L := by
  unfold parseCsvToRows
  rw [parseCsvAux_consume_csv L [] hne]
  simp only [List.nil_append]
  exact List.filter_eq_self.mpr hcell

/-- C9 witness: the round trip at a concrete two-record file whose first
record needs quoting (a comma and a quote inside cells). -/
theorem c9_witness :
    parseCsvToRows (csvOfRows [[['a', ',', 'b'], ['"']], [['x'], []]]) =
      [[['a', ',', 'b'], ['"']], [['x'], []]] :=
  c9_roundtrip [[['a', ',', 'b'], ['"']], [['x'], []]] (by decide) (by decide)

end TPE
